import Mathlib

/-!
Shallow embedding of the operations demonstrated by the notebooks in
`Fundamentals_of_Data_Manipulation_with_Python`:

* week2 `QueryingDataFrame_ed.ipynb` — boolean indicator sequences over a
  numeric column, their elementwise combination with the overloaded `&`
  operator, `df.where(mask)` (masking) and `df[mask]` (filtering);
* week1 `IntroductionToCourse.ipynb` — grouped mean aggregation over parsed
  CSV records (`CtyMpgByCyl`, `HwyMpgByClass`), tuple unpacking, string
  formatting of a sales record, and the loop / list-comprehension pair
  producing the even numbers below 1000.

Numeric column values are modelled as rationals; the literal decimal values
appearing in the notebooks (0.65, 0.72, 0.85, 0.95, 3.24, thresholds 0.7 and
0.9) are exactly representable and all comparisons and products involved are
exact, so the rational model agrees with the notebook's floating-point runs
on every input used here.
-/

namespace DataManip

/-! ### Boolean indicator sequences (week2) -/

/-- Broadcasting the comparison `df[col] > t` over a column: one boolean per
row. -/
def seriesGt (vals : List ℚ) (t : ℚ) : List Bool :=
  vals.map (fun v => decide (v > t))

/-- Broadcasting the comparison `df[col] < t` over a column. -/
def seriesLt (vals : List ℚ) (t : ℚ) : List Bool :=
  vals.map (fun v => decide (v < t))

/-- The pandas `&` operator on two boolean Series: conjunction applied
independently at each matching row position. -/
def elementwiseAnd (a b : List Bool) : List Bool :=
  List.zipWith and a b

/-- The literal chance-of-admit style values the spec fixes for the
elementwise-and example: `[0.65, 0.72, 0.85, 0.95]`. -/
def chanceValues : List ℚ :=
  [65/100, 72/100, 85/100, 95/100]

/-- Indexing a frame with a boolean mask (`df[mask]`): rows where the mask is
true are kept together with their original zero-based index. -/
def boolIndex {α : Type} (rows : List α) (mask : List Bool) : List (ℕ × α) :=
  ((rows.enum.zip mask).filter (fun p => p.2)).map (fun p => p.1)

/-- The `df.where(mask)` operation: a sequence of the same length as the
input in which the rows failing the predicate are replaced by the explicit
missing-value marker (`NaN` in the notebook, `none` here). -/
def maskField {α : Type} (rows : List α) (p : α → Bool) : List (Option α) :=
  rows.map (fun r => if p r then some r else none)

/-- Index-tracking filter scan: keeps the rows satisfying the predicate,
pairing each with its position counted from `i`. -/
def filterIdxFrom {α : Type} (p : α → Bool) : ℕ → List α → List (ℕ × α)
  | _, [] => []
  | i, a :: as =>
    if p a then (i, a) :: filterIdxFrom p (i + 1) as
    else filterIdxFrom p (i + 1) as

/-- The `df[df[col] > t]` operation: only the rows satisfying the predicate
are retained, each with its original zero-based index. -/
def filterRows {α : Type} (rows : List α) (p : α → Bool) : List (ℕ × α) :=
  filterIdxFrom p 0 rows

/-- Filtering an already-filtered frame (whose rows carry their original
indices) by a further predicate on the row values. -/
def filterAgain {α : Type} (rows : List (ℕ × α)) (p : α → Bool) : List (ℕ × α) :=
  rows.filter (fun r => p r.2)

/-! ### Pointwise behaviour of `elementwiseAnd` -/

theorem elementwiseAnd_getD (A B : List Bool) (i : ℕ) :
    (elementwiseAnd A B).getD i false = (A.getD i false && B.getD i false) := by
  induction A generalizing B i with
  | nil => cases B <;> simp [elementwiseAnd]
  | cons a as ih =>
    cases B with
    | nil => simp [elementwiseAnd]
    | cons b bs =>
      cases i with
      | zero => simp [elementwiseAnd]
      | succ j => simpa [elementwiseAnd] using ih bs j

/-- C1: elementwise-and combines two equal-length boolean indicator sequences
independently at each matching row position (never as a whole-sequence
truthiness test), and on the indicator sequences obtained by broadcasting
`> 0.7` and `< 0.9` over `[0.65, 0.72, 0.85, 0.95]` the combined mask selects
exactly the rows at zero-based indices 1 and 2, holding the values 0.72 and
0.85, and no others. -/
theorem elementwiseAnd_pointwise_and_selects_middle :
    (∀ (A B : List Bool) (i : ℕ),
        (elementwiseAnd A B).getD i false = (A.getD i false && B.getD i false)) ∧
    boolIndex chanceValues
        (elementwiseAnd (seriesGt chanceValues (7/10)) (seriesLt chanceValues (9/10)))
      = [(1, 72/100), (2, 85/100)] := by
  refine ⟨elementwiseAnd_getD, ?_⟩
  norm_num [boolIndex, chanceValues, seriesGt, seriesLt, elementwiseAnd,
    List.enum, List.enumFrom]

/-- C2: for equal-length boolean indicator sequences, elementwise-and is
commutative and its result has the same length as either input. -/
theorem elementwiseAnd_comm_and_length (A B : List Bool) (h : A.length = B.length) :
    elementwiseAnd A B = elementwiseAnd B A ∧
    (elementwiseAnd A B).length = A.length ∧
    (elementwiseAnd A B).length = B.length := by
  refine ⟨?_, ?_, ?_⟩
  · induction A generalizing B with
    | nil => cases B <;> simp [elementwiseAnd]
    | cons a as ih =>
      cases B with
      | nil => simp [elementwiseAnd]
      | cons b bs =>
        simp only [elementwiseAnd, List.zipWith] at *
        exact congrArg₂ List.cons (Bool.and_comm a b) (ih bs (by simpa using h))
  · simp [elementwiseAnd, List.length_zipWith, h]
  · simp [elementwiseAnd, List.length_zipWith, h]

/-- Witness for C2 at the concrete pair `[true, false]`, `[false, true]`. -/
theorem elementwiseAnd_comm_and_length_wit :
    elementwiseAnd [true, false] [false, true] = elementwiseAnd [false, true] [true, false] ∧
    (elementwiseAnd [true, false] [false, true]).length = [true, false].length ∧
    (elementwiseAnd [true, false] [false, true]).length = [false, true].length :=
  elementwiseAnd_comm_and_length [true, false] [false, true] rfl

/-! ### Mask versus filter (week2) -/

theorem filterIdxFrom_length_le {α : Type} (p : α → Bool) (l : List α) :
    ∀ k, (filterIdxFrom p k l).length ≤ l.length := by
  induction l with
  | nil => intro k; simp [filterIdxFrom]
  | cons a as ih =>
    intro k
    cases hpa : p a with
    | true =>
      simpa [filterIdxFrom, hpa, Nat.succ_le_succ_iff] using ih (k + 1)
    | false =>
      simp only [filterIdxFrom, hpa, Bool.false_eq_true, if_false, List.length_cons]
      exact le_trans (ih (k + 1)) (Nat.le_succ _)

theorem filterIdxFrom_length_eq_iff {α : Type} (p : α → Bool) (l : List α) :
    ∀ k, ((filterIdxFrom p k l).length = l.length ↔ ∀ a ∈ l, p a) := by
  induction l with
  | nil => intro k; simp [filterIdxFrom]
  | cons a as ih =>
    intro k
    cases hpa : p a with
    | true => simp [filterIdxFrom, hpa, ih (k + 1)]
    | false =>
      simp only [filterIdxFrom, hpa, Bool.false_eq_true, if_false, List.length_cons]
      constructor
      · intro hlen
        exact absurd (hlen ▸ filterIdxFrom_length_le p as (k + 1)) (Nat.not_succ_le_self _)
      · intro hall
        exact absurd (hall a (List.mem_cons_self a as)) (by simp [hpa])

theorem filterIdxFrom_mem {α : Type} (p : α → Bool) (l : List α) :
    ∀ k i a, (i, a) ∈ filterIdxFrom p k l → k ≤ i ∧ l[i - k]? = some a ∧ p a := by
  induction l with
  | nil => intro k i a h; simp [filterIdxFrom] at h
  | cons d ds ih =>
    intro k i a h
    cases hpd : p d with
    | false =>
      obtain ⟨hk, hget, hp⟩ := ih (k + 1) i a (by simpa [filterIdxFrom, hpd] using h)
      refine ⟨le_trans (Nat.le_succ k) hk, ?_, hp⟩
      have hik : i - k = (i - (k + 1)) + 1 := by omega
      rw [hik]
      simpa using hget
    | true =>
      have h' : (i, a) = (k, d) ∨ (i, a) ∈ filterIdxFrom p (k + 1) ds := by
        simpa [filterIdxFrom, hpd] using h
      rcases h' with h' | h'
      · injection h' with h1 h2
        subst h1; subst h2
        exact ⟨le_rfl, by simp, hpd⟩
      · obtain ⟨hk, hget, hp⟩ := ih (k + 1) i a h'
        refine ⟨le_trans (Nat.le_succ k) hk, ?_, hp⟩
        have hik : i - k = (i - (k + 1)) + 1 := by omega
        rw [hik]
        simpa using hget

/-- C5: `df.where` (masking) and `df[...]` (filtering) have distinct shape
contracts: masking preserves the input length, replacing non-matching rows
with the missing marker; filtering returns at most as many rows as the input,
with equality exactly when every row matches, and every retained row carries
its original index, pointing back at that very row of the input. -/
theorem mask_vs_filter {α : Type} (rows : List α) (p : α → Bool) :
    (maskField rows p).length = rows.length ∧
    (∀ (i : ℕ) (a : α), rows[i]? = some a →
      (maskField rows p)[i]? = some (if p a then some a else none)) ∧
    (filterRows rows p).length ≤ rows.length ∧
    ((filterRows rows p).length = rows.length ↔ ∀ a ∈ rows, p a) ∧
    ∀ i a, (i, a) ∈ filterRows rows p → rows[i]? = some a ∧ p a := by
  refine ⟨by simp [maskField], ?_, filterIdxFrom_length_le p rows 0,
    filterIdxFrom_length_eq_iff p rows 0, ?_⟩
  · intro i a h
    simp [maskField, List.getElem?_map, h]
  · intro i a h
    obtain ⟨-, hget, hp⟩ := filterIdxFrom_mem p rows 0 i a h
    exact ⟨by simpa using hget, hp⟩

/-- Witness for C5 on the concrete frame `[5, 2, 7]` with predicate `5 ≤ n`. -/
theorem mask_vs_filter_wit :
    (maskField [5, 2, 7] (fun n => decide (5 ≤ n))).length = ([5, 2, 7] : List ℕ).length ∧
    (∀ (i : ℕ) (a : ℕ), ([5, 2, 7] : List ℕ)[i]? = some a →
      (maskField [5, 2, 7] (fun n => decide (5 ≤ n)))[i]? =
        some (if decide (5 ≤ a) = true then some a else none)) ∧
    (filterRows [5, 2, 7] (fun n => decide (5 ≤ n))).length ≤ ([5, 2, 7] : List ℕ).length ∧
    ((filterRows [5, 2, 7] (fun n => decide (5 ≤ n))).length = ([5, 2, 7] : List ℕ).length ↔
      ∀ a ∈ ([5, 2, 7] : List ℕ), decide (5 ≤ a) = true) ∧
    ∀ i a, (i, a) ∈ filterRows [5, 2, 7] (fun n => decide (5 ≤ n)) →
      ([5, 2, 7] : List ℕ)[i]? = some a ∧ decide (5 ≤ a) = true :=
  mask_vs_filter [5, 2, 7] (fun n => decide (5 ≤ n))

theorem filterAgain_filterIdxFrom {α : Type} (q p : α → Bool) (l : List α) :
    ∀ k, filterAgain (filterIdxFrom p k l) q = filterIdxFrom (fun a => p a && q a) k l := by
  induction l with
  | nil => intro k; simp [filterIdxFrom, filterAgain]
  | cons a as ih =>
    intro k
    have ih' : List.filter (fun r => q r.2) (filterIdxFrom p (k + 1) as) =
        filterIdxFrom (fun a => p a && q a) (k + 1) as := ih (k + 1)
    cases hpa : p a with
    | false => simp [filterIdxFrom, hpa, ih (k + 1)]
    | true =>
      cases hqa : q a with
      | false => simp [filterIdxFrom, filterAgain, List.filter_cons, hpa, hqa, ih']
      | true => simp [filterIdxFrom, filterAgain, List.filter_cons, hpa, hqa, ih']

/-- C6: filtering with predicate `q1` and then filtering the result with `q2`
gives exactly the rows obtained by filtering once with the elementwise
conjunction of the two predicates. -/
theorem filter_composition {α : Type} (rows : List α) (q1 q2 : α → Bool) :
    filterAgain (filterRows rows q1) q2 = filterRows rows (fun a => q1 a && q2 a) :=
  filterAgain_filterIdxFrom q2 q1 rows 0

/-- Witness for C6 on the concrete frame `[1, 2, 3, 4]` with the predicates
`2 ≤ n` and `n ≤ 3`. -/
theorem filter_composition_wit :
    filterAgain (filterRows [1, 2, 3, 4] (fun n => 2 ≤ n)) (fun n => n ≤ 3) =
      filterRows [1, 2, 3, 4] (fun a => (fun n => 2 ≤ n) a && (fun n => n ≤ 3) a) :=
  filter_composition [1, 2, 3, 4] (fun n => 2 ≤ n) (fun n => n ≤ 3)

/-! ### Grouped mean aggregation over parsed CSV records (week1) -/

/-- Failure raised when a value column entry is not numeric-parseable
(the `float(...)` conversion failing loudly in the notebook). -/
structure ParseError where
  bad : String
  deriving DecidableEq

/-- One row of the mpg dataset, restricted to the columns the two grouping
cells read: all values are read from the CSV as text. -/
structure MpgRecord where
  cyl : String
  cty : String
  cls : String
  hwy : String
  deriving DecidableEq

/-- The `set(d[k] for d in mpg)` step: the distinct values of the grouping
column, here in first-appearance order (Python's set iteration order is
unspecified; both grouping cells sort their output afterwards). -/
def uniqueKeys (l : List String) : List String :=
  l.foldl (fun acc k => if k ∈ acc then acc else acc ++ [k]) []

/-- Inner loop of a grouping cell: scan every record and, for the records
whose grouping column equals `c`, parse the value column and accumulate the
running sum `s` and count `n`; the first unparseable entry aborts the whole
computation with a `ParseError` (nothing is coerced to zero or null). -/
def sumCount {α : Type} (parse : String → Option ℚ) (gk gv : α → String) (c : String) :
    List α → ℚ → ℕ → Except ParseError (ℚ × ℕ)
  | [], s, n => Except.ok (s, n)
  | d :: ds, s, n =>
    if gk d = c then
      match parse (gv d) with
      | none => Except.error ⟨gv d⟩
      | some v => sumCount parse gk gv c ds (s + v) (n + 1)
    else sumCount parse gk gv c ds s n

/-- Outer loop of a grouping cell: one `(key, sum / count)` pair per distinct
key, in key-list order. -/
def groupLoop {α : Type} (parse : String → Option ℚ) (gk gv : α → String) (rs : List α) :
    List String → Except ParseError (List (String × ℚ))
  | [] => Except.ok []
  | c :: cs =>
    match sumCount parse gk gv c rs 0 0 with
    | Except.error e => Except.error e
    | Except.ok sn =>
      match groupLoop parse gk gv rs cs with
      | Except.error e => Except.error e
      | Except.ok rest => Except.ok ((c, sn.1 / (sn.2 : ℚ)) :: rest)

/-- Comparison used by `CtyMpgByCyl.sort(key=lambda x: x[0])`: ascending by
the grouping key. -/
def keyLe (a b : String × ℚ) : Prop := a.1 ≤ b.1

/-- Comparison used by `HwyMpgByClass.sort(key=lambda x: x[1])`: ascending by
the aggregated mean. -/
def valLe (a b : String × ℚ) : Prop := a.2 ≤ b.2

instance : DecidableRel keyLe := fun a b => inferInstanceAs (Decidable (a.1 ≤ b.1))

instance : DecidableRel valLe := fun a b => inferInstanceAs (Decidable (a.2 ≤ b.2))

instance : IsTotal (String × ℚ) keyLe := ⟨fun a b => le_total a.1 b.1⟩

instance : IsTotal (String × ℚ) valLe := ⟨fun a b => le_total a.2 b.2⟩

instance : IsTrans (String × ℚ) keyLe := ⟨fun _ _ _ h h' => le_trans h h'⟩

instance : IsTrans (String × ℚ) valLe := ⟨fun _ _ _ h h' => le_trans h h'⟩

/-- The `CtyMpgByCyl` cell: group the records by the `cyl` column, average
the parsed `cty` column per group, and sort the pairs ascending by key. -/
def ctyMpgByCyl (parse : String → Option ℚ) (mpg : List MpgRecord) :
    Except ParseError (List (String × ℚ)) :=
  (groupLoop parse (fun d => d.cyl) (fun d => d.cty) mpg
      (uniqueKeys (mpg.map (fun d => d.cyl)))).map
    (List.insertionSort keyLe)

/-- The `HwyMpgByClass` cell: group the records by the `class` column,
average the parsed `hwy` column per group, and sort the pairs ascending by
the aggregated mean. -/
def hwyMpgByClass (parse : String → Option ℚ) (mpg : List MpgRecord) :
    Except ParseError (List (String × ℚ)) :=
  (groupLoop parse (fun d => d.cls) (fun d => d.hwy) mpg
      (uniqueKeys (mpg.map (fun d => d.cls)))).map
    (List.insertionSort valLe)

/-- Accumulating decimal-digit scan over the characters of a value string:
code points 48–57 are the digits `0`–`9`; any other character fails. -/
def digitsToNat : List Char → ℕ → Option ℕ
  | [], acc => some acc
  | c :: cs, acc =>
    if 48 ≤ c.toNat ∧ c.toNat ≤ 57 then digitsToNat cs (acc * 10 + (c.toNat - 48))
    else none

/-- The fragment of Python's `float(...)` conversion needed for the
nonnegative integer-valued strings appearing in the concrete examples:
a nonempty string of decimal digits parses to the corresponding rational,
anything else fails. -/
def parseFloat (s : String) : Option ℚ :=
  match s.toList with
  | [] => none
  | l => (digitsToNat l 0).map (fun n => (n : ℚ))

/-- The three-record input fixed by the spec for the aggregation component:
`[{cyl: "4", cty: "20"}, {cyl: "4", cty: "30"}, {cyl: "6", cty: "15"}]`. -/
def sampleRecords : List MpgRecord :=
  [⟨"4", "20", "", ""⟩, ⟨"4", "30", "", ""⟩, ⟨"6", "15", "", ""⟩]

/-- A record set with both grouping columns populated, used to exercise the
two sort orders concretely. -/
def sampleMpg : List MpgRecord :=
  [⟨"4", "20", "compact", "29"⟩, ⟨"4", "30", "compact", "31"⟩, ⟨"6", "15", "suv", "17"⟩]

/-- C3: on the three-record input with `cyl` values `"4", "4", "6"` and `cty`
values `"20", "30", "15"`, grouping by `cyl` and averaging the parsed `cty`
yields exactly `[("4", 25), ("6", 15)]`, sorted ascending by key. -/
theorem ctyMpgByCyl_sample :
    ctyMpgByCyl parseFloat sampleRecords = Except.ok [("4", 25), ("6", 15)] := by
  norm_num [ctyMpgByCyl, groupLoop, sumCount, uniqueKeys, sampleRecords,
    Except.map, List.insertionSort, List.orderedInsert, keyLe,
    show parseFloat "20" = some ((20 : ℕ) : ℚ) from rfl,
    show parseFloat "30" = some ((30 : ℕ) : ℚ) from rfl,
    show parseFloat "15" = some ((15 : ℕ) : ℚ) from rfl,
    show ("4" : String) ≤ "6" by rw [String.le_iff_toList_le]; decide,
    show ¬("6" : String) = "4" by decide, show ¬("4" : String) = "6" by decide]

/-- C4: the two demonstrated groupings order their output by different sort
keys: whenever `CtyMpgByCyl` succeeds its result is sorted ascending by the
grouping key, and whenever `HwyMpgByClass` succeeds its result is sorted
ascending by the aggregated mean value. -/
theorem groupings_use_different_sort_keys (parse : String → Option ℚ)
    (mpg : List MpgRecord) (out1 out2 : List (String × ℚ))
    (h1 : ctyMpgByCyl parse mpg = Except.ok out1)
    (h2 : hwyMpgByClass parse mpg = Except.ok out2) :
    List.Sorted keyLe out1 ∧ List.Sorted valLe out2 := by
  constructor
  · cases hg : groupLoop parse (fun d => d.cyl) (fun d => d.cty) mpg
        (uniqueKeys (mpg.map (fun d => d.cyl))) with
    | error e => simp [ctyMpgByCyl, hg, Except.map] at h1
    | ok l =>
      rw [ctyMpgByCyl, hg] at h1
      simp only [Except.map, Except.ok.injEq] at h1
      exact h1 ▸ List.sorted_insertionSort keyLe l
  · cases hg : groupLoop parse (fun d => d.cls) (fun d => d.hwy) mpg
        (uniqueKeys (mpg.map (fun d => d.cls))) with
    | error e => simp [hwyMpgByClass, hg, Except.map] at h2
    | ok l =>
      rw [hwyMpgByClass, hg] at h2
      simp only [Except.map, Except.ok.injEq] at h2
      exact h2 ▸ List.sorted_insertionSort valLe l

/-- Witness for C4 on `sampleMpg`: the cylinder grouping comes out sorted by
its keys while the class grouping comes out sorted by its means. -/
theorem groupings_use_different_sort_keys_wit :
    List.Sorted keyLe [("4", (25 : ℚ)), ("6", 15)] ∧
    List.Sorted valLe [("suv", (17 : ℚ)), ("compact", 30)] :=
  groupings_use_different_sort_keys parseFloat sampleMpg
    [("4", 25), ("6", 15)] [("suv", 17), ("compact", 30)]
    (by norm_num [ctyMpgByCyl, groupLoop, sumCount, uniqueKeys, sampleMpg,
      Except.map, List.insertionSort, List.orderedInsert, keyLe,
      show parseFloat "20" = some ((20 : ℕ) : ℚ) from rfl,
      show parseFloat "30" = some ((30 : ℕ) : ℚ) from rfl,
      show parseFloat "15" = some ((15 : ℕ) : ℚ) from rfl,
      show ("4" : String) ≤ "6" by rw [String.le_iff_toList_le]; decide,
      show ¬("6" : String) = "4" by decide, show ¬("4" : String) = "6" by decide])
    (by norm_num [hwyMpgByClass, groupLoop, sumCount, uniqueKeys, sampleMpg,
      Except.map, List.insertionSort, List.orderedInsert, valLe,
      show parseFloat "29" = some ((29 : ℕ) : ℚ) from rfl,
      show parseFloat "31" = some ((31 : ℕ) : ℚ) from rfl,
      show parseFloat "17" = some ((17 : ℕ) : ℚ) from rfl,
      show ¬("suv" : String) = "compact" by decide,
      show ¬("compact" : String) = "suv" by decide])

theorem sumCount_ok_iff {α : Type} (parse : String → Option ℚ) (gk gv : α → String)
    (c : String) :
    ∀ (l : List α) (s : ℚ) (n : ℕ),
      (∃ r, sumCount parse gk gv c l s n = Except.ok r) ↔
        ∀ d ∈ l, gk d = c → (parse (gv d)).isSome := by
  intro l
  induction l with
  | nil => intro s n; simp [sumCount]
  | cons d ds ih =>
    intro s n
    by_cases hk : gk d = c
    · cases hp : parse (gv d) with
      | none => simp [sumCount, hk, hp, List.forall_mem_cons]
      | some v => simp [sumCount, hk, hp, List.forall_mem_cons, ih (s + v) (n + 1)]
    · simp [sumCount, hk, List.forall_mem_cons, ih s n]

theorem groupLoop_ok_iff {α : Type} (parse : String → Option ℚ) (gk gv : α → String)
    (rs : List α) :
    ∀ cs : List String,
      (∃ out, groupLoop parse gk gv rs cs = Except.ok out) ↔
        ∀ c ∈ cs, ∀ d ∈ rs, gk d = c → (parse (gv d)).isSome := by
  intro cs
  induction cs with
  | nil => simp [groupLoop]
  | cons c cs ih =>
    rw [List.forall_mem_cons]
    constructor
    · rintro ⟨out, hout⟩
      simp only [groupLoop] at hout
      cases hs : sumCount parse gk gv c rs 0 0 with
      | error e => rw [hs] at hout; simp at hout
      | ok sn =>
        rw [hs] at hout
        cases hg : groupLoop parse gk gv rs cs with
        | error e => rw [hg] at hout; simp at hout
        | ok rest =>
          exact ⟨(sumCount_ok_iff parse gk gv c rs 0 0).mp ⟨sn, hs⟩, ih.mp ⟨rest, hg⟩⟩
    · rintro ⟨hc, hrest⟩
      obtain ⟨sn, hs⟩ := (sumCount_ok_iff parse gk gv c rs 0 0).mpr hc
      obtain ⟨rest, hg⟩ := ih.mpr hrest
      exact ⟨(c, sn.1 / (sn.2 : ℚ)) :: rest, by simp [groupLoop, hs, hg]⟩

theorem mem_uniqueKeys (l : List String) (x : String) : x ∈ uniqueKeys l ↔ x ∈ l := by
  have aux : ∀ (ls acc : List String),
      (x ∈ ls.foldl (fun acc k => if k ∈ acc then acc else acc ++ [k]) acc) ↔
        (x ∈ acc ∨ x ∈ ls) := by
    intro ls
    induction ls with
    | nil => intro acc; simp
    | cons k ks ih =>
      intro acc
      rw [List.foldl_cons, ih]
      by_cases hk : k ∈ acc
      · simp only [hk, if_true, List.mem_cons]
        constructor
        · rintro (h | h)
          · exact Or.inl h
          · exact Or.inr (Or.inr h)
        · rintro (h | rfl | h)
          · exact Or.inl h
          · exact Or.inl hk
          · exact Or.inr h
      · simp only [hk, if_false, List.mem_append, List.mem_cons, List.mem_singleton]
        tauto
  simpa using aux l []

/-- C8: the cylinder grouping succeeds exactly when every `cty` entry of the
input records is numeric-parseable; any unparseable entry makes the whole
aggregation abort with a `ParseError` instead of coercing the entry to zero
or null. -/
theorem ctyMpgByCyl_ok_iff (parse : String → Option ℚ) (rs : List MpgRecord) :
    (∃ out, ctyMpgByCyl parse rs = Except.ok out) ↔
      ∀ d ∈ rs, (parse d.cty).isSome := by
  have hmap : (∃ out, ctyMpgByCyl parse rs = Except.ok out) ↔
      ∃ l, groupLoop parse (fun d => d.cyl) (fun d => d.cty) rs
        (uniqueKeys (rs.map (fun d => d.cyl))) = Except.ok l := by
    cases hg : groupLoop parse (fun d => d.cyl) (fun d => d.cty) rs
        (uniqueKeys (rs.map (fun d => d.cyl))) with
    | error e => simp [ctyMpgByCyl, hg, Except.map]
    | ok l => simp [ctyMpgByCyl, hg, Except.map]
  rw [hmap, groupLoop_ok_iff]
  constructor
  · intro h d hd
    exact h d.cyl ((mem_uniqueKeys _ _).mpr (List.mem_map_of_mem _ hd)) d hd rfl
  · intro h c hc d hd hdc
    exact h d hd

/-- Witness for C8 on the concrete three-record input. -/
theorem ctyMpgByCyl_ok_iff_wit :
    (∃ out, ctyMpgByCyl parseFloat sampleRecords = Except.ok out) ↔
      ∀ d ∈ sampleRecords, (parseFloat d.cty).isSome :=
  ctyMpgByCyl_ok_iff parseFloat sampleRecords

/-! ### Tuple unpacking (week1) -/

/-- Failure raised when a fixed-width record is unpacked into the wrong
number of named fields (the `ValueError: too many values to unpack
(expected 3)` of the notebook), carrying the count mismatch. -/
structure ShapeError where
  expected : ℕ
  actual : ℕ
  deriving DecidableEq

/-- The `fname, lname, email = x` cell: unpacking a sequence into exactly
three names succeeds only on three-element input; any other width fails with
a count mismatch, never dropping or padding values. -/
def unpack3 {α : Type} (xs : List α) : Except ShapeError (α × α × α) :=
  match xs with
  | [a, b, c] => Except.ok (a, b, c)
  | _ => Except.error ⟨3, xs.length⟩

/-- C7: unpacking into three named fields succeeds exactly on three-element
records, and on the notebook's four-element literal it fails with the
count-mismatch error `expected 3, actual 4` instead of silently truncating
or padding. -/
theorem unpack3_shape :
    (∀ xs : List String, (∃ v, unpack3 xs = Except.ok v) ↔ xs.length = 3) ∧
    unpack3 ["Christopher", "Brooks", "brooksch@umich.edu", "Ann Arbor"]
      = Except.error ⟨3, 4⟩ := by
  constructor
  · intro xs
    match xs with
    | [] => simp [unpack3]
    | [a] => simp [unpack3]
    | [a, b] => simp [unpack3]
    | [a, b, c] => simp [unpack3]
    | a :: b :: c :: d :: tl => simp [unpack3]
  · rfl

/-! ### The sales-record formatting example (week1) -/

/-- The `price` field of the sales-record literal. -/
def salesPrice : ℚ := 3.24

/-- The `num_items` field of the sales-record literal. -/
def salesNumItems : ℕ := 4

/-- The total substituted into the sales statement:
`sales_record['num_items'] * sales_record['price']`. -/
def salesTotal : ℚ := (salesNumItems : ℚ) * salesPrice

/-- C9: the formatted total of the sales record with price 3.24 and 4 items
is exactly 12.96, an exact two-decimal value (100 times it is the integer
1296). -/
theorem salesTotal_eq : salesTotal = 12.96 ∧ salesTotal * 100 = 1296 := by
  constructor <;> norm_num [salesTotal, salesPrice, salesNumItems]

/-! ### Loop versus list comprehension (week1) -/

/-- The explicit accumulator loop over `range(0, 1000)` appending every
number divisible by 2. -/
def myListLoop : List ℕ :=
  (List.range 1000).foldl
    (fun acc number => if number % 2 == 0 then acc ++ [number] else acc) []

/-- The list comprehension
`[number for number in range(0, 1000) if number % 2 == 0]`. -/
def myListComp : List ℕ :=
  (List.range 1000).filter (fun number => number % 2 == 0)

theorem foldl_append_filter {α : Type} (p : α → Bool) (l : List α) :
    ∀ acc, l.foldl (fun acc a => if p a then acc ++ [a] else acc) acc = acc ++ l.filter p := by
  induction l with
  | nil => intro acc; simp
  | cons a as ih =>
    intro acc
    cases hpa : p a with
    | true => simp [List.foldl_cons, hpa, ih, List.filter_cons]
    | false => simp [List.foldl_cons, hpa, ih, List.filter_cons]

set_option maxRecDepth 4000 in
/-- C10: the explicit accumulator loop and the list comprehension build the
same list, namely the 500 even integers 0, 2, …, 998 in ascending order. -/
theorem myList_loop_eq_comprehension :
    myListLoop = myListComp ∧
    myListComp = (List.range 500).map (fun k => 2 * k) := by
  constructor
  · rw [myListLoop, myListComp, foldl_append_filter]
    simp
  · decide

end DataManip
